import Mathlib

/-!
Shallow embedding of the audio-reactive visualizer core (src/index.html):
band extraction, beat detection, the particle pool, the particle size
envelope, and the visualization style controller.  Machine floats are
modelled by exact rationals; a JavaScript division whose divisor is zero
produces NaN (or Infinity), which we model by Option (none = not a real
number).  Spectrum samples come from a Uint8Array, so they are naturals
bounded by 255.
-/

namespace Visualizer

/-- Sum of the 255-normalized magnitudes of a byte-sample list.
Mirrors the accumulation loops that add sample/255 per bin. -/
def normSum (data : List ℕ) : ℚ :=
  (data.map (fun (v : ℕ) => (v : ℚ) / 255)).sum

/-- JavaScript division where a zero divisor yields NaN or Infinity,
modelled as none. -/
def jsDiv (x : ℚ) (d : ℚ) : Option ℚ :=
  if d = 0 then none else some (x / d)

/-- The four band levels produced by one extraction pass. -/
structure BandLevels where
  low : Option ℚ
  mid : Option ℚ
  high : Option ℚ
  overall : Option ℚ
  deriving DecidableEq

/-- Band extraction of updateShadersVisualizer (index.html lines 1535-1558):
partition bounds at floor(0.2 N) and floor(0.6 N), band value = mean of the
normalized samples of the partition, divisor exactly as in the source. -/
def shadersBands (data : List ℕ) : BandLevels :=
  let n := data.length
  let lowMidBound := n / 5
  let midHighBound := 3 * n / 5
  { low := jsDiv (normSum (data.take lowMidBound)) lowMidBound
    mid := jsDiv (normSum ((data.drop lowMidBound).take (midHighBound - lowMidBound)))
             ((midHighBound - lowMidBound : ℕ) : ℚ)
    high := jsDiv (normSum (data.drop midHighBound)) ((n - midHighBound : ℕ) : ℚ)
    overall := jsDiv (normSum data) n }

/-- The three levels produced by updateVisualizer (index.html lines 1591-1605). -/
structure GeneralLevels where
  averageLevel : Option ℚ
  lowFreqAvg : Option ℚ
  highFreqAvg : Option ℚ
  deriving DecidableEq

/-- Level extraction of updateVisualizer: cutoffs at floor(N/3) and
floor(2N/3), means with the divisors of the source. -/
def generalLevels (data : List ℕ) : GeneralLevels :=
  let n := data.length
  let lowFreqCutoff := n / 3
  let highFreqStart := 2 * n / 3
  { averageLevel := jsDiv (normSum data) n
    lowFreqAvg := jsDiv (normSum (data.take lowFreqCutoff)) lowFreqCutoff
    highFreqAvg := jsDiv (normSum (data.drop highFreqStart)) ((n - highFreqStart : ℕ) : ℚ) }

/-- An optional level that is a genuine number in the unit interval. -/
def inUnitOpt (o : Option ℚ) : Prop :=
  ∃ q, o = some q ∧ 0 ≤ q ∧ q ≤ 1

lemma normSum_nonneg (data : List ℕ) : 0 ≤ normSum data := by
  unfold normSum
  refine List.sum_nonneg ?_
  intro x hx
  obtain ⟨v, hv, rfl⟩ := List.mem_map.mp hx
  positivity

lemma normSum_le_length (data : List ℕ) (hb : ∀ v ∈ data, v ≤ 255) :
    normSum data ≤ data.length := by
  unfold normSum
  calc (data.map (fun (v : ℕ) => (v : ℚ) / 255)).sum
      ≤ (data.map (fun (v : ℕ) => (v : ℚ) / 255)).length • (1 : ℚ) := by
        refine List.sum_le_card_nsmul _ _ ?_
        intro x hx
        obtain ⟨v, hv, rfl⟩ := List.mem_map.mp hx
        have h255 : (v : ℚ) ≤ 255 := by exact_mod_cast hb v hv
        rw [div_le_one (by norm_num : (0:ℚ) < 255)]
        exact h255
    _ = data.length := by rw [List.length_map, nsmul_eq_mul, mul_one]

lemma normSum_eq_zero (data : List ℕ) (hz : ∀ v ∈ data, v = 0) :
    normSum data = 0 := by
  unfold normSum
  refine List.sum_eq_zero ?_
  intro x hx
  obtain ⟨v, hv, rfl⟩ := List.mem_map.mp hx
  rw [hz v hv]
  norm_num

/-- The mean of a nonempty list of bounded byte samples is a well defined
number in the unit interval, and is zero when all samples are zero. -/
lemma jsDiv_mean_unit (l : List ℕ) (k : ℕ) (hk : k ≠ 0) (hlen : l.length = k)
    (hb : ∀ v ∈ l, v ≤ 255) :
    inUnitOpt (jsDiv (normSum l) k) ∧
      ((∀ v ∈ l, v = 0) → jsDiv (normSum l) k = some 0) := by
  have hkq : (k : ℚ) ≠ 0 := by exact_mod_cast hk
  have hkpos : (0 : ℚ) < k := by
    have : 0 < k := Nat.pos_of_ne_zero hk
    exact_mod_cast this
  constructor
  · refine ⟨normSum l / k, ?_, ?_, ?_⟩
    · simp [jsDiv, hkq]
    · exact div_nonneg (normSum_nonneg l) (le_of_lt hkpos)
    · rw [div_le_one hkpos]
      calc normSum l ≤ l.length := normSum_le_length l hb
        _ = (k : ℚ) := by exact_mod_cast congrArg Nat.cast hlen
  · intro hz
    simp [jsDiv, hkq, normSum_eq_zero l hz]

lemma take_subset_bound (data : List ℕ) (k : ℕ) (hb : ∀ v ∈ data, v ≤ 255) :
    ∀ v ∈ data.take k, v ≤ 255 :=
  fun v hv => hb v (List.mem_of_mem_take hv)

lemma drop_subset_bound (data : List ℕ) (k : ℕ) (hb : ∀ v ∈ data, v ≤ 255) :
    ∀ v ∈ data.drop k, v ≤ 255 :=
  fun v hv => hb v (List.mem_of_mem_drop hv)

/-- C2 (amended): for every spectrum snapshot of at least five samples,
every band level of both extraction passes is a well defined number in
the unit interval, and an all-zero snapshot yields all-zero levels.
The zero-length guard the claim asserts does not exist in the code, so
the length hypothesis is required. -/
theorem bandExtraction_unit_and_zero (data : List ℕ)
    (hb : ∀ v ∈ data, v ≤ 255) (h5 : 5 ≤ data.length) :
    (inUnitOpt (shadersBands data).low ∧ inUnitOpt (shadersBands data).mid ∧
     inUnitOpt (shadersBands data).high ∧ inUnitOpt (shadersBands data).overall) ∧
    (inUnitOpt (generalLevels data).averageLevel ∧
     inUnitOpt (generalLevels data).lowFreqAvg ∧
     inUnitOpt (generalLevels data).highFreqAvg) ∧
    ((∀ v ∈ data, v = 0) →
      shadersBands data = ⟨some 0, some 0, some 0, some 0⟩ ∧
      generalLevels data = ⟨some 0, some 0, some 0⟩) := by
  have n5 : data.length / 5 ≠ 0 := by omega
  have nmid : 3 * data.length / 5 - data.length / 5 ≠ 0 := by omega
  have nhigh : data.length - 3 * data.length / 5 ≠ 0 := by omega
  have n0 : data.length ≠ 0 := by omega
  have n3 : data.length / 3 ≠ 0 := by omega
  have ngh : data.length - 2 * data.length / 3 ≠ 0 := by omega
  have hlenlow : (data.take (data.length / 5)).length = data.length / 5 := by
    rw [List.length_take]; omega
  have hlenmid : ((data.drop (data.length / 5)).take
      (3 * data.length / 5 - data.length / 5)).length
      = 3 * data.length / 5 - data.length / 5 := by
    rw [List.length_take, List.length_drop]; omega
  have hlenhigh : (data.drop (3 * data.length / 5)).length
      = data.length - 3 * data.length / 5 := by
    rw [List.length_drop]
  have hlenlow3 : (data.take (data.length / 3)).length = data.length / 3 := by
    rw [List.length_take]; omega
  have hlenhigh3 : (data.drop (2 * data.length / 3)).length
      = data.length - 2 * data.length / 3 := by
    rw [List.length_drop]
  have hmidb : ∀ v ∈ (data.drop (data.length / 5)).take
      (3 * data.length / 5 - data.length / 5), v ≤ 255 :=
    take_subset_bound _ _ (drop_subset_bound _ _ hb)
  have hlow := jsDiv_mean_unit _ _ n5 hlenlow (take_subset_bound _ _ hb)
  have hmid := jsDiv_mean_unit _ _ nmid hlenmid hmidb
  have hhigh := jsDiv_mean_unit _ _ nhigh hlenhigh (drop_subset_bound _ _ hb)
  have hov := jsDiv_mean_unit _ _ n0 rfl hb
  have hlow3 := jsDiv_mean_unit _ _ n3 hlenlow3 (take_subset_bound _ _ hb)
  have hhigh3 := jsDiv_mean_unit _ _ ngh hlenhigh3 (drop_subset_bound _ _ hb)
  refine ⟨⟨hlow.1, hmid.1, hhigh.1, hov.1⟩, ⟨hov.1, hlow3.1, hhigh3.1⟩, ?_⟩
  intro hz
  have hzlow : ∀ v ∈ data.take (data.length / 5), v = 0 :=
    fun v hv => hz v (List.mem_of_mem_take hv)
  have hzmid : ∀ v ∈ (data.drop (data.length / 5)).take
      (3 * data.length / 5 - data.length / 5), v = 0 :=
    fun v hv => hz v (List.mem_of_mem_drop (List.mem_of_mem_take hv))
  have hzhigh : ∀ v ∈ data.drop (3 * data.length / 5), v = 0 :=
    fun v hv => hz v (List.mem_of_mem_drop hv)
  have hzlow3 : ∀ v ∈ data.take (data.length / 3), v = 0 :=
    fun v hv => hz v (List.mem_of_mem_take hv)
  have hzhigh3 : ∀ v ∈ data.drop (2 * data.length / 3), v = 0 :=
    fun v hv => hz v (List.mem_of_mem_drop hv)
  constructor
  · show BandLevels.mk _ _ _ _ = _
    rw [hlow.2 hzlow, hmid.2 hzmid, hhigh.2 hzhigh, hov.2 hz]
  · show GeneralLevels.mk _ _ _ = _
    rw [hov.2 hz, hlow3.2 hzlow3, hhigh3.2 hzhigh3]

/-- C2 witness: the amended theorem applied to a concrete five-sample
snapshot. -/
theorem bandExtraction_unit_and_zero_witness :
    (∀ v ∈ [255, 0, 0, 0, 0], v ≤ 255) ∧ 5 ≤ [255, 0, 0, 0, 0].length ∧
    ((inUnitOpt (shadersBands [255, 0, 0, 0, 0]).low ∧
      inUnitOpt (shadersBands [255, 0, 0, 0, 0]).mid ∧
      inUnitOpt (shadersBands [255, 0, 0, 0, 0]).high ∧
      inUnitOpt (shadersBands [255, 0, 0, 0, 0]).overall) ∧
     (inUnitOpt (generalLevels [255, 0, 0, 0, 0]).averageLevel ∧
      inUnitOpt (generalLevels [255, 0, 0, 0, 0]).lowFreqAvg ∧
      inUnitOpt (generalLevels [255, 0, 0, 0, 0]).highFreqAvg) ∧
     ((∀ v ∈ [255, 0, 0, 0, 0], v = 0) →
       shadersBands [255, 0, 0, 0, 0] = ⟨some 0, some 0, some 0, some 0⟩ ∧
       generalLevels [255, 0, 0, 0, 0] = ⟨some 0, some 0, some 0⟩)) :=
  ⟨by decide, by decide,
    bandExtraction_unit_and_zero [255, 0, 0, 0, 0] (by decide) (by decide)⟩

/-- C2 counterexample: on the zero-length snapshot every divisor is zero,
so every band level is NaN (modelled none), not the all-zero levels the
claim asserts; in particular the overall mean is not the number zero. -/
theorem bandExtraction_empty_snapshot_NaN :
    shadersBands [] = ⟨none, none, none, none⟩ ∧
    generalLevels [] = ⟨none, none, none⟩ ∧
    (shadersBands []).overall ≠ some 0 := by
  refine ⟨by decide, by decide, by decide⟩

/-- A particle slot is inactive when its remaining lifetime is below zero
(index.html line 1777). -/
def isInactive (t : ℚ) : Bool := decide (t < 0)

/-- Number of inactive slots of the pool. -/
def inactiveCount (lts : List ℚ) : ℕ := lts.countP isInactive

/-- Number of active slots (remaining lifetime at least zero). -/
def activeCount (lts : List ℚ) : ℕ := lts.countP (fun t => decide (0 ≤ t))

/-- Mutable state of the wave-style particle engine that the emission
path touches (createWaveVisualizer, index.html lines 855-899).  Particle
positions, colors and sizes are driven by Math.random and are not needed
by any claim, so only the lifetime pool and the counters are modelled. -/
structure WaveState where
  particleLifetimes : List ℚ
  particleCount : ℕ
  maxParticles : ℕ
  particleLifespan : ℚ
  deriving DecidableEq

/-- Pool state right after createWaveVisualizer: 3000 slots, all lifetimes
minus one (inactive), zero active particles, lifespan three seconds. -/
def initWaveState : WaveState :=
  { particleLifetimes := List.replicate 3000 (-1)
    particleCount := 0
    maxParticles := 3000
    particleLifespan := 3 }

/-- The per-particle loop of emitParticles (index.html lines 1773-1786):
each iteration scans for the first inactive slot, stops when none is left,
and otherwise activates that slot with the full lifespan. -/
def activateLoop : ℕ → ℚ → List ℚ → List ℚ
  | 0, _, lts => lts
  | n + 1, lifespan, lts =>
    match lts.findIdx? isInactive with
    | none => lts
    | some j => activateLoop n lifespan (lts.set j lifespan)

/-- The emitParticles entry (index.html lines 1752-1786): the burst size
is floor of count times one plus bassIntensity, clamped by the remaining
capacity according to the particleCount counter; the loop then activates
at most that many inactive slots.  The trebleIntensity argument only
influences colors and is unused here. -/
def emitParticles (s : WaveState) (count : ℕ)
    (bassIntensity : ℚ) (trebleIntensity : ℚ) : WaveState :=
  let baseBurstSize : ℤ := Int.floor ((count : ℚ) * (1 + bassIntensity))
  let particlesToEmit : ℤ :=
    min baseBurstSize ((s.maxParticles : ℤ) - (s.particleCount : ℤ))
  let _ := trebleIntensity
  { s with particleLifetimes :=
      activateLoop particlesToEmit.toNat s.particleLifespan s.particleLifetimes }

set_option linter.unnecessarySeqFocus false in
lemma countP_set_le (p : ℚ → Bool) (l : List ℚ) (j : ℕ) (a : ℚ) :
    (l.set j a).countP p ≤ l.countP p + 1 := by
  induction l generalizing j with
  | nil => simp
  | cons x xs ih =>
    cases j with
    | zero =>
      simp only [List.set_cons_zero, List.countP_cons]
      have := List.countP_le_length (p := p) (l := xs)
      by_cases hpa : p a <;> by_cases hpx : p x <;> simp [hpa, hpx] <;> omega
    | succ k =>
      simp only [List.set_cons_succ, List.countP_cons]
      have := ih k
      by_cases hpx : p x <;> simp [hpx] <;> omega

lemma length_activateLoop (n : ℕ) (L : ℚ) (lts : List ℚ) :
    (activateLoop n L lts).length = lts.length := by
  induction n generalizing lts with
  | zero => rfl
  | succ m ih =>
    unfold activateLoop
    cases h : lts.findIdx? isInactive with
    | none => rfl
    | some j => rw [ih, List.length_set]

lemma findIdx?_none_of_countP_zero (p : ℚ → Bool) (l : List ℚ)
    (h : l.countP p = 0) : l.findIdx? p = none := by
  induction l with
  | nil => rfl
  | cons x xs ih =>
    rw [List.countP_cons] at h
    have hx : p x = false := by
      by_cases hp : p x <;> simp [hp] at h ⊢
    have hxs : xs.countP p = 0 := by omega
    simp [List.findIdx?_cons, hx, ih hxs]

lemma activateLoop_full (n : ℕ) (L : ℚ) (lts : List ℚ)
    (h : inactiveCount lts = 0) : activateLoop n L lts = lts := by
  cases n with
  | zero => rfl
  | succ m =>
    unfold activateLoop
    rw [findIdx?_none_of_countP_zero isInactive lts h]

lemma activeCount_activateLoop_le (n : ℕ) (L : ℚ) (lts : List ℚ) :
    activeCount (activateLoop n L lts) ≤ activeCount lts + n := by
  induction n generalizing lts with
  | zero => simp [activateLoop]
  | succ m ih =>
    unfold activateLoop
    cases h : lts.findIdx? isInactive with
    | none => exact Nat.le_add_right _ _
    | some j =>
      calc activeCount (activateLoop m L (lts.set j L))
          ≤ activeCount (lts.set j L) + m := ih (lts.set j L)
        _ ≤ (activeCount lts + 1) + m := by
            have := countP_set_le (fun t => decide (0 ≤ t)) lts j L
            unfold activeCount
            omega
        _ = activeCount lts + (m + 1) := by omega

lemma emitParticles_lifetimes (s : WaveState) (count : ℕ) (bass treble : ℚ) :
    (emitParticles s count bass treble).particleLifetimes =
      activateLoop
        (min (Int.floor ((count : ℚ) * (1 + bass)))
          ((s.maxParticles : ℤ) - (s.particleCount : ℤ))).toNat
        s.particleLifespan s.particleLifetimes := rfl

lemma length_emitParticles (s : WaveState) (count : ℕ) (bass treble : ℚ) :
    (emitParticles s count bass treble).particleLifetimes.length =
      s.particleLifetimes.length := by
  rw [emitParticles_lifetimes, length_activateLoop]

/-- C3 (amended): for every pool state and every emission request, the
number of active particles grows by at most the burst size, which is
floor of count times one plus bassIntensity; this bound can exceed the
requested count when bassIntensity is positive, and emission is a total
operation that never signals an error. -/
theorem emitParticles_burst_bound (s : WaveState) (count : ℕ)
    (bass treble : ℚ) :
    activeCount ((emitParticles s count bass treble).particleLifetimes) ≤
      activeCount s.particleLifetimes +
        (Int.floor ((count : ℚ) * (1 + bass))).toNat := by
  rw [emitParticles_lifetimes]
  have h := activeCount_activateLoop_le
    (min (Int.floor ((count : ℚ) * (1 + bass)))
      ((s.maxParticles : ℤ) - (s.particleCount : ℤ))).toNat
    s.particleLifespan s.particleLifetimes
  have hmin :
      (min (Int.floor ((count : ℚ) * (1 + bass)))
        ((s.maxParticles : ℤ) - (s.particleCount : ℤ))).toNat ≤
      (Int.floor ((count : ℚ) * (1 + bass))).toNat :=
    Int.toNat_le_toNat (min_le_left _ _)
  omega

set_option maxRecDepth 40000 in
set_option linter.unnecessarySeqFocus false in
/-- C3 counterexample: on the freshly initialized pool a request for one
particle with bassIntensity one activates two particles, because the code
emits floor of count times one plus bassIntensity rather than count. -/
theorem emitParticles_exceeds_requested_count :
    activeCount ((emitParticles initWaveState 1 1 0).particleLifetimes) = 2 ∧
    activeCount initWaveState.particleLifetimes = 0 := by
  constructor
  · rw [emitParticles_lifetimes]
    have h2 : (min (Int.floor (((1 : ℕ) : ℚ) * (1 + (1 : ℚ))))
        ((initWaveState.maxParticles : ℤ) - (initWaveState.particleCount : ℤ))).toNat = 2 := by
      norm_num [initWaveState] <;> rfl
    rw [h2]
    decide
  · decide

lemma length_foldl_emit (reqs : List (ℕ × ℚ × ℚ)) (s : WaveState) :
    ((reqs.foldl (fun st r => emitParticles st r.1 r.2.1 r.2.2) s).particleLifetimes).length
      = s.particleLifetimes.length := by
  induction reqs generalizing s with
  | nil => rfl
  | cons r rs ih => rw [List.foldl_cons, ih, length_emitParticles]

/-- C5 (confirmed): after any sequence of emission calls on a pool of
size maxParticles = 3000, the active particle count never exceeds 3000,
and emission against a full pool (no inactive slot) leaves the pool
unchanged: zero particles are activated and nothing overflows. -/
theorem pool_capacity_invariant (reqs : List (ℕ × ℚ × ℚ)) (s : WaveState)
    (hlen : s.particleLifetimes.length = 3000) :
    activeCount ((reqs.foldl (fun st r => emitParticles st r.1 r.2.1 r.2.2) s).particleLifetimes) ≤ 3000
    ∧ (inactiveCount s.particleLifetimes = 0 →
        ∀ c b tr, (emitParticles s c b tr).particleLifetimes = s.particleLifetimes) := by
  constructor
  · have h := List.countP_le_length (p := fun t => decide ((0:ℚ) ≤ t))
      (l := (reqs.foldl (fun st r => emitParticles st r.1 r.2.1 r.2.2) s).particleLifetimes)
    rw [length_foldl_emit reqs s, hlen] at h
    exact h
  · intro hfull c b tr
    rw [emitParticles_lifetimes, activateLoop_full _ _ _ hfull]

lemma initWaveState_length : initWaveState.particleLifetimes.length = 3000 := by
  rw [show initWaveState.particleLifetimes = List.replicate 3000 (-1) from rfl,
    List.length_replicate]

/-- C5 witness: the capacity theorem applied to the freshly initialized
3000-slot pool and a concrete emission sequence. -/
theorem pool_capacity_invariant_witness :
    initWaveState.particleLifetimes.length = 3000 ∧
    (activeCount (([((1 : ℕ), (1 : ℚ), (0 : ℚ))].foldl
        (fun st r => emitParticles st r.1 r.2.1 r.2.2) initWaveState).particleLifetimes) ≤ 3000
      ∧ (inactiveCount initWaveState.particleLifetimes = 0 →
          ∀ c b tr, (emitParticles initWaveState c b tr).particleLifetimes =
            initWaveState.particleLifetimes)) :=
  ⟨initWaveState_length,
    pool_capacity_invariant [((1 : ℕ), (1 : ℚ), (0 : ℚ))] initWaveState
      initWaveState_length⟩

/-- Size multiplier from frame interactions (index.html lines 2020-2025):
one plus a tenth per recorded interaction. -/
def sizeFactor (frameInteractions : ℕ) : ℚ :=
  if 0 < frameInteractions then 1 + (frameInteractions : ℚ) * (1 / 10) else 1

/-- First fade factor of the size envelope (index.html line 2028). -/
def fadeIn (lifeFactor : ℚ) : ℚ :=
  if lifeFactor < 9 / 10 then lifeFactor / (9 / 10) else 1

/-- Second fade factor of the size envelope (index.html line 2029). -/
def fadeOut (lifeFactor : ℚ) : ℚ :=
  if lifeFactor < 2 / 10 then lifeFactor / (2 / 10) else 1

/-- Effective rendered particle size (index.html line 2031), as a function
of the initial size, the frame interaction count, and the life fraction
lifeFactor = remainingLifetime / particleLifespan. -/
def effectiveSize (initialSize : ℚ) (frameInteractions : ℕ) (lifeFactor : ℚ) : ℚ :=
  initialSize * sizeFactor frameInteractions * fadeIn lifeFactor * fadeOut lifeFactor

lemma sizeFactor_eq (fic : ℕ) : sizeFactor fic = 1 + (fic : ℚ) / 10 := by
  unfold sizeFactor
  rcases Nat.eq_zero_or_pos fic with h | h
  · subst h; norm_num
  · rw [if_pos h]; ring

lemma sizeFactor_nonneg (fic : ℕ) : 0 ≤ sizeFactor fic := by
  rw [sizeFactor_eq]
  positivity

lemma fadeIn_nonneg (lf : ℚ) (h : 0 ≤ lf) : 0 ≤ fadeIn lf := by
  unfold fadeIn
  split
  · positivity
  · norm_num

lemma fadeOut_nonneg (lf : ℚ) (h : 0 ≤ lf) : 0 ≤ fadeOut lf := by
  unfold fadeOut
  split
  · positivity
  · norm_num

lemma fadeIn_mono (a b : ℚ) (_ha : 0 ≤ a) (hab : a ≤ b) : fadeIn a ≤ fadeIn b := by
  unfold fadeIn
  by_cases h1 : a < 9 / 10 <;> by_cases h2 : b < 9 / 10
  · rw [if_pos h1, if_pos h2]
    exact (div_le_div_iff_of_pos_right (by norm_num)).mpr hab
  · rw [if_pos h1, if_neg h2]
    rw [div_le_one (by norm_num : (0:ℚ) < 9 / 10)]
    exact le_of_lt h1
  · exact absurd (lt_of_le_of_lt hab h2) h1
  · rw [if_neg h1, if_neg h2]

lemma fadeOut_mono (a b : ℚ) (_ha : 0 ≤ a) (hab : a ≤ b) : fadeOut a ≤ fadeOut b := by
  unfold fadeOut
  by_cases h1 : a < 2 / 10 <;> by_cases h2 : b < 2 / 10
  · rw [if_pos h1, if_pos h2]
    exact (div_le_div_iff_of_pos_right (by norm_num)).mpr hab
  · rw [if_pos h1, if_neg h2]
    rw [div_le_one (by norm_num : (0:ℚ) < 2 / 10)]
    exact le_of_lt h1
  · exact absurd (lt_of_le_of_lt hab h2) h1
  · rw [if_neg h1, if_neg h2]

/-- C4 (amended): the effective size obeys the claimed product formula
with fade factors equal to min(lifeFraction/0.9, 1) and
min(lifeFraction/0.2, 1), but the envelope runs the opposite way to the
claim: the size is FULL, namely initialSize times (1 + 0.1 per frame
interaction), at lifeFraction 1.0, stays full down to lifeFraction 0.9,
then decreases monotonically with decreasing lifeFraction and reaches 0
at lifeFraction 0; in particular it is monotone non-increasing along the
samples 1.0, 0.95, 0.5, 0.1, 0.0. -/
theorem effectiveSize_envelope (init : ℚ) (fic : ℕ) (hinit : 0 ≤ init) :
    (∀ lf : ℚ, 0 ≤ lf →
      fadeIn lf = min (lf / (9 / 10)) 1 ∧ fadeOut lf = min (lf / (2 / 10)) 1)
    ∧ (∀ lf : ℚ, effectiveSize init fic lf =
        init * (1 + (fic : ℚ) / 10) * fadeIn lf * fadeOut lf)
    ∧ effectiveSize init fic 1 = init * (1 + (fic : ℚ) / 10)
    ∧ effectiveSize init fic 0 = 0
    ∧ (∀ a b : ℚ, 0 ≤ a → a ≤ b →
        effectiveSize init fic a ≤ effectiveSize init fic b) := by
  refine ⟨?_, ?_, ?_, ?_, ?_⟩
  · intro lf hlf
    constructor
    · unfold fadeIn
      by_cases h : lf < 9 / 10
      · rw [if_pos h, min_eq_left]
        rw [div_le_one (by norm_num : (0:ℚ) < 9 / 10)]
        exact le_of_lt h
      · rw [if_neg h, min_eq_right]
        rw [le_div_iff₀ (by norm_num : (0:ℚ) < 9 / 10)]
        linarith [le_of_not_lt h]
    · unfold fadeOut
      by_cases h : lf < 2 / 10
      · rw [if_pos h, min_eq_left]
        rw [div_le_one (by norm_num : (0:ℚ) < 2 / 10)]
        exact le_of_lt h
      · rw [if_neg h, min_eq_right]
        rw [le_div_iff₀ (by norm_num : (0:ℚ) < 2 / 10)]
        linarith [le_of_not_lt h]
  · intro lf
    unfold effectiveSize
    rw [sizeFactor_eq]
  · unfold effectiveSize fadeIn fadeOut
    rw [sizeFactor_eq]
    norm_num
  · unfold effectiveSize fadeIn fadeOut
    norm_num
  · intro a b ha hab
    unfold effectiveSize
    have hbase : 0 ≤ init * sizeFactor fic :=
      mul_nonneg hinit (sizeFactor_nonneg fic)
    have h1 : fadeIn a * fadeOut a ≤ fadeIn b * fadeOut b :=
      mul_le_mul (fadeIn_mono a b ha hab) (fadeOut_mono a b ha hab)
        (fadeOut_nonneg a ha) (fadeIn_nonneg b (le_trans ha hab))
    calc init * sizeFactor fic * fadeIn a * fadeOut a
        = init * sizeFactor fic * (fadeIn a * fadeOut a) := by ring
      _ ≤ init * sizeFactor fic * (fadeIn b * fadeOut b) :=
          mul_le_mul_of_nonneg_left h1 hbase
      _ = init * sizeFactor fic * fadeIn b * fadeOut b := by ring

/-- C4 witness: the envelope theorem applied at initial size 2 with one
frame interaction. -/
theorem effectiveSize_envelope_witness :
    (0 : ℚ) ≤ 2 ∧
    ((∀ lf : ℚ, 0 ≤ lf →
        fadeIn lf = min (lf / (9 / 10)) 1 ∧ fadeOut lf = min (lf / (2 / 10)) 1)
      ∧ (∀ lf : ℚ, effectiveSize 2 1 lf =
          2 * (1 + ((1 : ℕ) : ℚ) / 10) * fadeIn lf * fadeOut lf)
      ∧ effectiveSize 2 1 1 = 2 * (1 + ((1 : ℕ) : ℚ) / 10)
      ∧ effectiveSize 2 1 0 = 0
      ∧ (∀ a b : ℚ, 0 ≤ a → a ≤ b →
          effectiveSize 2 1 a ≤ effectiveSize 2 1 b)) :=
  ⟨by norm_num, effectiveSize_envelope 2 1 (by norm_num)⟩

/-- C4 counterexample: at lifeFraction 1.0, the life fraction of a just
emitted particle, the effective size is the full initial size, not the
zero value the claim asserts. -/
theorem effectiveSize_full_at_birth :
    effectiveSize 1 0 1 = 1 ∧ effectiveSize 1 0 1 ≠ 0 := by
  constructor <;> norm_num [effectiveSize, fadeIn, fadeOut, sizeFactor]

/-- Beat detection state (createWaveVisualizer, index.html lines 953-964). -/
structure BeatVars where
  energyHistory : List ℚ
  beatThreshold : ℚ
  lastBeatTime : ℚ
  beatHoldTime : ℚ
  bassEnergy : ℚ
  trebleEnergy : ℚ
  bassBeat : ℚ
  trebleBeat : ℚ
  emitCooldown : ℚ
  deriving DecidableEq

/-- Initial beat detection state (index.html lines 954-964): a history of
thirty zeros, threshold 1.5, hold time 0.2 seconds, everything else zero. -/
def initBeatVars : BeatVars :=
  { energyHistory := List.replicate 30 0
    beatThreshold := 3 / 2
    lastBeatTime := 0
    beatHoldTime := 1 / 5
    bassEnergy := 0
    trebleEnergy := 0
    bassBeat := 0
    trebleBeat := 0
    emitCooldown := 0 }

/-- One input tick of the beat detector: the instantaneous bass and treble
band energies (the per-band means the claims quantify over), the frame
delta time, and the current clock time. -/
structure Tick where
  bass : ℚ
  treble : ℚ
  dt : ℚ
  now : ℚ
  deriving DecidableEq

/-- History update of detectBeats (index.html lines 1713-1717): push the
current bass energy, then shift off the oldest entry once the length
exceeds thirty. -/
def pushHistory (hist : List ℚ) (e : ℚ) : List ℚ :=
  let h := hist ++ [e]
  if 30 < h.length then h.tail else h

/-- Bass-beat firing condition of detectBeats (index.html lines 1719-1728):
the raw bass energy exceeds the history average times the threshold, and
the hold time since the last beat has elapsed.  The average is taken over
the history as updated this tick. -/
def bassBeatFires (b : BeatVars) (bassEnergy currentTime : ℚ) : Bool :=
  let hist := pushHistory b.energyHistory bassEnergy
  let averageEnergy := hist.sum / (hist.length : ℚ)
  decide (averageEnergy * b.beatThreshold < bassEnergy) &&
    decide (b.beatHoldTime < currentTime - b.lastBeatTime)

/-- The state update of detectBeats (index.html lines 1690-1745) given the
two band energies of the tick.  The decay multipliers 0.7 pow (10 dt) and
0.5 pow (15 dt) use the transcendental Math.pow, so the model abstracts
the power function as the argument pow; every theorem below holds for all
pow.  The treble comparison uses the treble energy smoothed this tick,
exactly as the source does. -/
def detectBeatsCore (pow : ℚ → ℚ → ℚ) (tk : Tick) (b : BeatVars) : BeatVars :=
  let trebleSmoothed := b.trebleEnergy * (9 / 10) + tk.treble * (1 / 10)
  let fired := bassBeatFires b tk.bass tk.now
  { b with
    bassEnergy := b.bassEnergy * (9 / 10) + tk.bass * (1 / 10)
    trebleEnergy := trebleSmoothed
    energyHistory := pushHistory b.energyHistory tk.bass
    lastBeatTime := if fired then tk.now else b.lastBeatTime
    bassBeat := if fired then min (tk.bass * 2) 1
                else b.bassBeat * pow (7 / 10) (tk.dt * 10)
    trebleBeat := if trebleSmoothed * (13 / 10) < tk.treble then min (tk.treble * (3 / 2)) 1
                  else b.trebleBeat * pow (1 / 2) (tk.dt * 15) }

/-- A sequence of detector ticks applied in order. -/
def runTicks (pow : ℚ → ℚ → ℚ) (ticks : List Tick) (b : BeatVars) : BeatVars :=
  ticks.foldl (fun st tk => detectBeatsCore pow tk st) b

lemma detectBeatsCore_beatHoldTime (pow : ℚ → ℚ → ℚ) (tk : Tick) (b : BeatVars) :
    (detectBeatsCore pow tk b).beatHoldTime = b.beatHoldTime := rfl

lemma runTicks_beatHoldTime (pow : ℚ → ℚ → ℚ) (ticks : List Tick) (b : BeatVars) :
    (runTicks pow ticks b).beatHoldTime = b.beatHoldTime := by
  induction ticks generalizing b with
  | nil => rfl
  | cons tk ts ih =>
    rw [runTicks, List.foldl_cons]
    exact ih (detectBeatsCore pow tk b)

lemma detectBeatsCore_lastBeatTime (pow : ℚ → ℚ → ℚ) (tk : Tick) (b : BeatVars) :
    (detectBeatsCore pow tk b).lastBeatTime =
      if bassBeatFires b tk.bass tk.now then tk.now else b.lastBeatTime := rfl

lemma fires_implies_elapsed (b : BeatVars) (e now : ℚ)
    (h : bassBeatFires b e now = true) :
    b.beatHoldTime < now - b.lastBeatTime := by
  unfold bassBeatFires at h
  rw [Bool.and_eq_true, decide_eq_true_eq, decide_eq_true_eq] at h
  exact h.2

lemma lastBeat_invariant (pow : ℚ → ℚ → ℚ) (t H : ℚ) (hH : 0 < H)
    (ticks : List Tick) (b : BeatVars)
    (hhold : b.beatHoldTime = H)
    (hlb : b.lastBeatTime = t ∨ t + H < b.lastBeatTime) :
    (runTicks pow ticks b).lastBeatTime = t ∨
      t + H < (runTicks pow ticks b).lastBeatTime := by
  induction ticks generalizing b with
  | nil => exact hlb
  | cons tk ts ih =>
    rw [runTicks, List.foldl_cons]
    refine ih (detectBeatsCore pow tk b) (by rw [detectBeatsCore_beatHoldTime, hhold]) ?_
    rw [detectBeatsCore_lastBeatTime]
    by_cases hf : bassBeatFires b tk.bass tk.now
    · rw [if_pos hf]
      have helapsed := fires_implies_elapsed b tk.bass tk.now hf
      rw [hhold] at helapsed
      rcases hlb with h | h
      · right; rw [h] at helapsed; linarith
      · right; linarith
    · rw [if_neg hf]
      exact hlb

/-- C6 (confirmed): for every power function, every initial state with the
0.2 second hold time, and every sequence of energies and tick times, once
a bass beat fires at a tick at time t, no bass beat fires at any later
tick whose time t2 satisfies t2 - t at most 0.2, regardless of the energy
values in between. -/
theorem bassBeat_no_refire_within_hold (pow : ℚ → ℚ → ℚ) (b0 : BeatVars)
    (pre mid : List Tick) (tf tq : Tick)
    (hhold : b0.beatHoldTime = 1 / 5)
    (hfire : bassBeatFires (runTicks pow pre b0) tf.bass tf.now = true)
    (hclose : tq.now - tf.now ≤ 1 / 5) :
    bassBeatFires
      (runTicks pow mid (detectBeatsCore pow tf (runTicks pow pre b0)))
      tq.bass tq.now = false := by
  set b1 := runTicks pow pre b0 with hb1
  have hhold1 : b1.beatHoldTime = 1 / 5 := by
    rw [hb1, runTicks_beatHoldTime, hhold]
  set b2 := detectBeatsCore pow tf b1 with hb2
  have hhold2 : b2.beatHoldTime = 1 / 5 := by
    rw [hb2, detectBeatsCore_beatHoldTime, hhold1]
  have hlb2 : b2.lastBeatTime = tf.now ∨ tf.now + 1 / 5 < b2.lastBeatTime := by
    left
    rw [hb2, detectBeatsCore_lastBeatTime, if_pos hfire]
  have hinv := lastBeat_invariant pow tf.now (1 / 5) (by norm_num) mid b2 hhold2 hlb2
  set b3 := runTicks pow mid b2 with hb3
  have hhold3 : b3.beatHoldTime = 1 / 5 := by
    rw [hb3, runTicks_beatHoldTime, hhold2]
  unfold bassBeatFires
  rw [Bool.and_eq_false_iff]
  right
  rw [decide_eq_false_iff_not]
  rw [hhold3]
  rcases hinv with h | h
  · rw [h]; linarith
  · intro hcon; linarith

/-- C6 witness: a concrete firing tick on the freshly initialized detector
followed by a tick a tenth of a second later. -/
theorem bassBeat_no_refire_witness :
    initBeatVars.beatHoldTime = 1 / 5 ∧
    bassBeatFires (runTicks (fun _ _ => 1) [] initBeatVars) 1 1 = true ∧
    ((11 / 10 : ℚ) - 1 ≤ 1 / 5) ∧
    bassBeatFires
      (runTicks (fun _ _ => 1) []
        (detectBeatsCore (fun _ _ => 1) ⟨1, 0, 1 / 100, 1⟩
          (runTicks (fun _ _ => 1) [] initBeatVars)))
      1 (11 / 10) = false := by
  have h1 : bassBeatFires initBeatVars 1 1 = true := by
    have hh : pushHistory initBeatVars.energyHistory 1 = List.replicate 29 0 ++ [1] := rfl
    simp only [bassBeatFires, hh, Bool.and_eq_true, decide_eq_true_eq]
    constructor <;>
      norm_num [initBeatVars, List.sum_append, List.sum_replicate,
        List.length_append, List.length_replicate, smul_zero]
  refine ⟨rfl, h1, by norm_num, ?_⟩
  exact bassBeat_no_refire_within_hold (fun _ _ => 1) initBeatVars [] []
    ⟨1, 0, 1 / 100, 1⟩ ⟨1, 0, 1 / 100, 11 / 10⟩ rfl h1 (by norm_num)

lemma detectBeatsCore_energyHistory (pow : ℚ → ℚ → ℚ) (tk : Tick) (b : BeatVars) :
    (detectBeatsCore pow tk b).energyHistory = pushHistory b.energyHistory tk.bass := rfl

lemma pushHistory_fifo (hist : List ℚ) (e : ℚ) (h : hist.length = 30) :
    pushHistory hist e = hist.tail ++ [e] := by
  cases hist with
  | nil => simp at h
  | cons x xs =>
    simp only [pushHistory]
    split
    · rfl
    · rename_i hcond
      exfalso
      apply hcond
      simp only [List.length_append, List.length_cons] at h ⊢
      omega

lemma length_pushHistory_le (hist : List ℚ) (e : ℚ) (h : hist.length ≤ 30) :
    (pushHistory hist e).length ≤ 30 := by
  simp only [pushHistory]
  split <;> rename_i hc <;>
    simp only [List.length_tail, List.length_append, List.length_cons,
      List.length_nil] at hc ⊢ <;> omega

lemma length_pushHistory_eq (hist : List ℚ) (e : ℚ) (h : hist.length = 30) :
    (pushHistory hist e).length = 30 := by
  rw [pushHistory_fifo hist e h, List.length_append, List.length_tail]
  simp only [List.length_cons, List.length_nil]
  omega

lemma runTicks_history_le (pow : ℚ → ℚ → ℚ) (ticks : List Tick) (b : BeatVars)
    (h : b.energyHistory.length ≤ 30) :
    (runTicks pow ticks b).energyHistory.length ≤ 30 := by
  induction ticks generalizing b with
  | nil => exact h
  | cons tk ts ih =>
    rw [runTicks, List.foldl_cons]
    exact ih (detectBeatsCore pow tk b)
      (by rw [detectBeatsCore_energyHistory]; exact length_pushHistory_le _ _ h)

lemma runTicks_history_eq (pow : ℚ → ℚ → ℚ) (ticks : List Tick) (b : BeatVars)
    (h : b.energyHistory.length = 30) :
    (runTicks pow ticks b).energyHistory.length = 30 := by
  induction ticks generalizing b with
  | nil => exact h
  | cons tk ts ih =>
    rw [runTicks, List.foldl_cons]
    exact ih (detectBeatsCore pow tk b)
      (by rw [detectBeatsCore_energyHistory]; exact length_pushHistory_eq _ _ h)

lemma initBeatVars_history_length : initBeatVars.energyHistory.length = 30 := by
  rw [show initBeatVars.energyHistory = List.replicate 30 0 from rfl,
    List.length_replicate]

/-- C7 (confirmed): for every power function, every tick sequence and
every state whose history holds at most thirty entries, the history
length stays at most thirty after any number of ticks, and whenever the
push would exceed thirty entries exactly the oldest entry is evicted:
the new history is the old history without its head, with the new energy
appended. -/
theorem energyHistory_bounded_fifo (pow : ℚ → ℚ → ℚ) (ticks : List Tick)
    (b : BeatVars) (tk : Tick) (h30 : b.energyHistory.length ≤ 30) :
    (runTicks pow ticks b).energyHistory.length ≤ 30 ∧
    (b.energyHistory.length = 30 →
      (detectBeatsCore pow tk b).energyHistory =
        b.energyHistory.tail ++ [tk.bass]) := by
  refine ⟨runTicks_history_le pow ticks b h30, ?_⟩
  intro h
  rw [detectBeatsCore_energyHistory]
  exact pushHistory_fifo _ _ h

/-- C7 witness: the bound and the FIFO shape on the freshly initialized
detector at a concrete tick. -/
theorem energyHistory_bounded_fifo_witness :
    initBeatVars.energyHistory.length ≤ 30 ∧
    ((runTicks (fun _ _ => 1) [⟨1, 1, 1, 1⟩] initBeatVars).energyHistory.length ≤ 30 ∧
      (initBeatVars.energyHistory.length = 30 →
        (detectBeatsCore (fun _ _ => 1) ⟨2, 0, 1, 1⟩ initBeatVars).energyHistory =
          initBeatVars.energyHistory.tail ++ [(⟨2, 0, 1, 1⟩ : Tick).bass])) :=
  ⟨le_of_eq initBeatVars_history_length,
    energyHistory_bounded_fifo (fun _ _ => 1) [⟨1, 1, 1, 1⟩] initBeatVars
      ⟨2, 0, 1, 1⟩ (le_of_eq initBeatVars_history_length)⟩

/-- C10 (confirmed): the energy history starts as exactly thirty zero
entries, each tick performs one push followed by at most one eviction so
the length is exactly thirty after any number of ticks, and the divisor
of the average-energy computation (the length of the history as updated
by the current tick) is always thirty, in particular never zero. -/
theorem energyHistory_exact_thirty (pow : ℚ → ℚ → ℚ) (ticks : List Tick) (tk : Tick) :
    initBeatVars.energyHistory = List.replicate 30 0 ∧
    (runTicks pow ticks initBeatVars).energyHistory.length = 30 ∧
    (pushHistory (runTicks pow ticks initBeatVars).energyHistory tk.bass).length = 30 ∧
    ((pushHistory (runTicks pow ticks initBeatVars).energyHistory tk.bass).length : ℚ) ≠ 0 := by
  have h30 := runTicks_history_eq pow ticks initBeatVars initBeatVars_history_length
  have hpush := length_pushHistory_eq
    (runTicks pow ticks initBeatVars).energyHistory tk.bass h30
  refine ⟨rfl, h30, hpush, ?_⟩
  rw [hpush]
  norm_num

/-- The two camera projection models the controller uses: the default
perspective camera carrying its field of view, and the orthographic
camera installed by the Shaders style. -/
inductive CameraKind where
  | perspective (fov : ℚ)
  | orthographic
  deriving DecidableEq

/-- Controller state: the selected style string, the camera model, the
stored camera clone, the Shaders resources (plane and material), the
shared transient values reset on scene clear, and one flag per mesh
family recording whether that style has built its scene objects. -/
structure ControllerState where
  currentStyle : String
  camera : CameraKind
  originalCamera : Option CameraKind
  shaderPlane : Bool
  shaderMaterial : Bool
  shaderTime : ℚ
  lowFreqSmoothed : ℚ
  midFreqSmoothed : ℚ
  highFreqSmoothed : ℚ
  overallSmoothed : ℚ
  barsBuilt : Bool
  pointsBuilt : Bool
  towersBuilt : Bool
  deriving DecidableEq

/-- The clearScene method (index.html lines 652-712): removes and nulls
every style object including the shader plane and material, and resets
the shader time and the smoothed frequency bands to zero. -/
def clearScene (s : ControllerState) : ControllerState :=
  { s with
    barsBuilt := false
    pointsBuilt := false
    towersBuilt := false
    shaderPlane := false
    shaderMaterial := false
    shaderTime := 0
    lowFreqSmoothed := 0
    midFreqSmoothed := 0
    highFreqSmoothed := 0
    overallSmoothed := 0 }

/-- The createBars method (index.html lines 718-739). -/
def createBars (s : ControllerState) : ControllerState :=
  { s with barsBuilt := true }

/-- The createPointsVisualizer method (index.html lines 745-853). -/
def createPointsVisualizer (s : ControllerState) : ControllerState :=
  { s with pointsBuilt := true }

/-- The createTowersVisualizer method. -/
def createTowersVisualizer (s : ControllerState) : ControllerState :=
  { s with towersBuilt := true }

/-- The createShadersVisualizer method (index.html lines 1327-1517): nulls
the shader fields, stores a clone of the current camera, builds the
shader material and plane, and swaps in the orthographic camera.  The
body is wrapped in try/catch: when construction throws, the catch block
sets the style to bars and builds the bars scene instead.  The flag
constructionFails selects the catch path. -/
def createShadersVisualizer (constructionFails : Bool) (s : ControllerState) :
    ControllerState :=
  if constructionFails then
    { s with
      shaderPlane := false
      shaderMaterial := false
      shaderTime := 0
      currentStyle := "bars"
      barsBuilt := true }
  else
    { s with
      shaderTime := 0
      originalCamera := some s.camera
      shaderMaterial := true
      shaderPlane := true
      camera := CameraKind.orthographic }

/-- The createVisualizer method (index.html lines 569-647).  The source
reads previousStyle from this.currentStyle at entry; every caller that
switches styles assigns the NEW style to currentStyle before calling, so
previousStyle holds the incoming style, not the outgoing one.  When
previousStyle equals shaders the method replaces the camera with a fresh
perspective camera with field of view 75 and clears the stored clone;
then the switch on currentStyle builds the selected style, and a string
matching no case builds nothing. -/
def createVisualizer (shadersFail : Bool) (s : ControllerState) : ControllerState :=
  let previousStyle := s.currentStyle
  let s1 := clearScene s
  let s2 := if previousStyle = "shaders" then
      { s1 with camera := CameraKind.perspective 75, originalCamera := none }
    else s1
  if s2.currentStyle = "bars" then createBars s2
  else if s2.currentStyle = "points" then createPointsVisualizer s2
  else if s2.currentStyle = "towers" then createTowersVisualizer s2
  else if s2.currentStyle = "shaders" then createShadersVisualizer shadersFail s2
  else s2

/-- One change event of the style selector (index.html lines 408-417):
two identical listeners are registered, each assigns the selected value
to currentStyle and calls createVisualizer, so the pair runs twice per
event. -/
def changeStyleEvent (shadersFail : Bool) (value : String) (s : ControllerState) :
    ControllerState :=
  let s1 := createVisualizer shadersFail { s with currentStyle := value }
  createVisualizer shadersFail { s1 with currentStyle := value }

/-- Controller state as built by the constructor (index.html lines 246-288):
perspective camera with field of view 75, style bars, all resources empty;
init and the constructor then each run createVisualizer once. -/
def initController : ControllerState :=
  createVisualizer false (createVisualizer false
    { currentStyle := "bars"
      camera := CameraKind.perspective 75
      originalCamera := none
      shaderPlane := false
      shaderMaterial := false
      shaderTime := 0
      lowFreqSmoothed := 0
      midFreqSmoothed := 0
      highFreqSmoothed := 0
      overallSmoothed := 0
      barsBuilt := false
      pointsBuilt := false
      towersBuilt := false })

/-- C1 evaluation at the failing input: after the style change events
bars to shaders to bars, the shader plane and material are indeed cleared,
but the camera is still the orthographic camera of the Shaders style, not
the restored perspective camera with field of view 75: the restoration
branch tests previousStyle, which the change handler has already
overwritten with the incoming style, so it runs when entering shaders and
never when leaving it. -/
theorem shaders_roundtrip_leaves_orthographic_camera :
    (changeStyleEvent false "bars"
        (changeStyleEvent false "shaders" initController)).currentStyle = "bars" ∧
    (changeStyleEvent false "bars"
        (changeStyleEvent false "shaders" initController)).shaderPlane = false ∧
    (changeStyleEvent false "bars"
        (changeStyleEvent false "shaders" initController)).shaderMaterial = false ∧
    (changeStyleEvent false "bars"
        (changeStyleEvent false "shaders" initController)).camera =
      CameraKind.orthographic ∧
    (changeStyleEvent false "bars"
        (changeStyleEvent false "shaders" initController)).camera ≠
      CameraKind.perspective 75 := by
  refine ⟨rfl, rfl, rfl, rfl, by decide⟩

/-- C8 counterexample: the style setter performs no validation; feeding it
a string that is none of the four identifiers overwrites currentStyle
with that string (the controller does not remain in its current style),
tears down the previous scene, and raises no error. -/
theorem invalid_style_changes_state :
    initController.currentStyle = "bars" ∧
    (changeStyleEvent false "nebula" initController).currentStyle = "nebula" ∧
    (changeStyleEvent false "nebula" initController).currentStyle ≠
      initController.currentStyle ∧
    (changeStyleEvent false "nebula" initController).barsBuilt = false := by
  refine ⟨rfl, rfl, by decide, rfl⟩

/-- C8 (amended): an identifier that is not one of bars, points, towers,
shaders is accepted rather than rejected: the controller stores it as the
current style, the construction switch matches no case, so after the
event no style resources exist at all (the previous scene was cleared and
nothing was rebuilt), and no error is signalled; the camera is left as it
was. -/
theorem invalid_style_accepted_builds_nothing (v : String) (f : Bool)
    (s : ControllerState)
    (hv : v ≠ "bars" ∧ v ≠ "points" ∧ v ≠ "towers" ∧ v ≠ "shaders") :
    (changeStyleEvent f v s).currentStyle = v ∧
    (changeStyleEvent f v s).barsBuilt = false ∧
    (changeStyleEvent f v s).pointsBuilt = false ∧
    (changeStyleEvent f v s).towersBuilt = false ∧
    (changeStyleEvent f v s).shaderPlane = false ∧
    (changeStyleEvent f v s).shaderMaterial = false ∧
    (changeStyleEvent f v s).camera = s.camera := by
  obtain ⟨h1, h2, h3, h4⟩ := hv
  simp [changeStyleEvent, createVisualizer, clearScene, createBars,
    createPointsVisualizer, createTowersVisualizer, createShadersVisualizer,
    if_neg h1, if_neg h2, if_neg h3, if_neg h4]

/-- C8 witness: the amended theorem applied to the identifier nebula on
the initial controller. -/
theorem invalid_style_accepted_witness :
    (("nebula" : String) ≠ "bars" ∧ ("nebula" : String) ≠ "points" ∧
      ("nebula" : String) ≠ "towers" ∧ ("nebula" : String) ≠ "shaders") ∧
    ((changeStyleEvent false "nebula" initController).currentStyle = "nebula" ∧
      (changeStyleEvent false "nebula" initController).barsBuilt = false ∧
      (changeStyleEvent false "nebula" initController).pointsBuilt = false ∧
      (changeStyleEvent false "nebula" initController).towersBuilt = false ∧
      (changeStyleEvent false "nebula" initController).shaderPlane = false ∧
      (changeStyleEvent false "nebula" initController).shaderMaterial = false ∧
      (changeStyleEvent false "nebula" initController).camera =
        initController.camera) :=
  ⟨by decide,
    invalid_style_accepted_builds_nothing "nebula" false initController (by decide)⟩

/-- C9 (confirmed): when the Shaders construction throws, the catch block
falls back to the Bars style: for every starting state, after a shaders
selection whose construction fails, the controller is in the bars style
with the bars scene built and the default perspective camera, so a
visualization is active and the failure is not fatal. -/
theorem shaders_failure_falls_back_to_bars (s : ControllerState) :
    (changeStyleEvent true "shaders" s).currentStyle = "bars" ∧
    (changeStyleEvent true "shaders" s).barsBuilt = true ∧
    (changeStyleEvent true "shaders" s).camera = CameraKind.perspective 75 := by
  simp only [changeStyleEvent, createVisualizer, clearScene,
    createShadersVisualizer, createBars]
  refine ⟨rfl, rfl, rfl⟩

end Visualizer
